import Mathlib

/-!
Shallow embedding of the GM program (src/src/lib.rs): a single Solana-style
instruction handler that checks ownership of the first account, borsh-decodes
a greeting record from the instruction bytes, and re-serializes it into the
storage buffer of the first account.

Bytes are modelled as natural numbers (a real byte is below 256; the theorems
that depend on this carry the bound as a hypothesis).  Public keys are
modelled as natural numbers, since the code only compares them for equality.
-/

namespace GM

/-- Model of solana_program AccountInfo: the fields the runtime hands to the
program.  The data field is the mutable storage buffer of the account. -/
structure AccountInfo where
  key : Nat
  lamports : Nat
  data : List Nat
  owner : Nat
  rent_epoch : Nat
  is_signer : Bool
  is_writable : Bool
  executable : Bool
deriving DecidableEq, Repr

/-- The program-error values this program can return (a subset of the
ProgramError enum of solana_program). -/
inductive ProgramError where
  | IncorrectProgramId
  | NotEnoughAccountKeys
  | BorshIoError (msg : String)
deriving DecidableEq, Repr

/-- Result of one call of process_instruction.  ok and err carry the account
list after the call (the runtime does not roll back buffer writes made before
an error return); aborted models a Rust panic, as caused by the unwrap on
line 41 of lib.rs. -/
inductive Outcome where
  | ok (accounts : List AccountInfo)
  | err (e : ProgramError) (accounts : List AccountInfo)
  | aborted
deriving DecidableEq, Repr

/-- Is b a UTF-8 continuation byte (0x80..0xBF)? -/
def utf8ContByte (b : Nat) : Bool :=
  0x80 ≤ b && b ≤ 0xBF

/-- UTF-8 validity of a byte sequence, per RFC 3629 (what
String::from_utf8 checks inside the borsh String deserializer). -/
def utf8Valid : List Nat → Bool
  | [] => true
  | b :: rest =>
    if b ≤ 0x7F then utf8Valid rest
    else if 0xC2 ≤ b && b ≤ 0xDF then
      match rest with
      | c1 :: r => utf8ContByte c1 && utf8Valid r
      | [] => false
    else if b = 0xE0 then
      match rest with
      | c1 :: c2 :: r =>
        (0xA0 ≤ c1 && c1 ≤ 0xBF) && utf8ContByte c2 && utf8Valid r
      | _ => false
    else if (0xE1 ≤ b && b ≤ 0xEC) || b = 0xEE || b = 0xEF then
      match rest with
      | c1 :: c2 :: r => utf8ContByte c1 && utf8ContByte c2 && utf8Valid r
      | _ => false
    else if b = 0xED then
      match rest with
      | c1 :: c2 :: r =>
        (0x80 ≤ c1 && c1 ≤ 0x9F) && utf8ContByte c2 && utf8Valid r
      | _ => false
    else if b = 0xF0 then
      match rest with
      | c1 :: c2 :: c3 :: r =>
        (0x90 ≤ c1 && c1 ≤ 0xBF) && utf8ContByte c2 && utf8ContByte c3 &&
          utf8Valid r
      | _ => false
    else if 0xF1 ≤ b && b ≤ 0xF3 then
      match rest with
      | c1 :: c2 :: c3 :: r =>
        utf8ContByte c1 && utf8ContByte c2 && utf8ContByte c3 && utf8Valid r
      | _ => false
    else if b = 0xF4 then
      match rest with
      | c1 :: c2 :: c3 :: r =>
        (0x80 ≤ c1 && c1 ≤ 0x8F) && utf8ContByte c2 && utf8ContByte c3 &&
          utf8Valid r
      | _ => false
    else false

/-- Little-endian byte encoding of a length as a u32 (borsh writes
self.len() as u32, truncating to 32 bits). -/
def u32le (n : Nat) : List Nat :=
  [n % 256, n / 256 % 256, n / 65536 % 256, n / 16777216 % 256]

/-- Borsh serialization of GreetingAccount tag-free single field name:
a u32 little-endian length prefix followed by the UTF-8 bytes of name.
The name is represented by its UTF-8 byte sequence. -/
def serializeGreeting (name : List Nat) : List Nat :=
  u32le name.length ++ name

/-- Borsh deserialization of GreetingAccount from a byte stream: read a
4-byte little-endian length, take that many bytes, check UTF-8 validity
(String::from_utf8), and return the name together with the unread rest. -/
def deserializeGreeting : List Nat → Option (List Nat × List Nat)
  | b0 :: b1 :: b2 :: b3 :: rest =>
    let len := b0 + 256 * b1 + 65536 * b2 + 16777216 * b3
    if len ≤ rest.length then
      if utf8Valid (rest.take len) then some (rest.take len, rest.drop len)
      else none
    else none
  | _ => none

/-- GreetingAccount::try_from_slice: deserialize and demand that the whole
slice was consumed. -/
def try_from_slice (bytes : List Nat) : Option (List Nat) :=
  match deserializeGreeting bytes with
  | some (name, rest) => if rest = [] then some name else none
  | none => none

/-- The message of the io error raised by write_all when the target slice
runs out of room; ProgramError::BorshIoError carries it. -/
def writeZeroMsg : String := "failed to write whole buffer"

/-- Model of input_data.serialize into the mutable data slice of the account:
the Write impl for a mutable byte slice copies as many bytes as fit at the
front; when the encoding does not fit, write_all fails with a WriteZero io
error after the partial copy.  Returns the error (if any) and the buffer
contents after the call. -/
def serializeInto (enc data : List Nat) : Option ProgramError × List Nat :=
  if enc.length ≤ data.length then
    (none, enc ++ data.drop enc.length)
  else
    (some (.BorshIoError writeZeroMsg), enc.take data.length)

/-- process_instruction of lib.rs: take the first account
(next_account_info, failing with NotEnoughAccountKeys when the list is
empty), check that its owner equals the program id (else
IncorrectProgramId), decode the input with try_from_slice (unwrap: panic on
failure), and serialize the record back into the account data. -/
def process_instruction (program_id : Nat) (accounts : List AccountInfo)
    (input : List Nat) : Outcome :=
  match accounts with
  | [] => .err .NotEnoughAccountKeys []
  | account :: rest =>
    if account.owner ≠ program_id then
      .err .IncorrectProgramId (account :: rest)
    else
      match try_from_slice input with
      | none => .aborted
      | some name =>
        match serializeInto (serializeGreeting name) account.data with
        | (none, newData) => .ok ({ account with data := newData } :: rest)
        | (some e, newData) => .err e ({ account with data := newData } :: rest)

/-- The account list after an outcome, when there is one (a panic leaves no
observable account state). -/
def outcomeAccounts : Outcome → Option (List AccountInfo)
  | .ok l => some l
  | .err _ l => some l
  | .aborted => none

end GM

namespace GM

/-- Claim C1: when the owner recorded in the first account differs from the
program id, the call returns IncorrectProgramId and the accounts, including
the storage bytes of the first one, are exactly as before. -/
theorem owner_mismatch_rejected (pid : Nat) (a : AccountInfo)
    (rest : List AccountInfo) (input : List Nat) (h : a.owner ≠ pid) :
    process_instruction pid (a :: rest) input =
      .err .IncorrectProgramId (a :: rest) := by
  simp only [process_instruction]
  rw [if_pos h]

/-- Witness for C1 at a concrete mismatched owner. -/
theorem owner_mismatch_rejected_witness :
    process_instruction 1
        [{ key := 0, lamports := 0, data := [9, 9], owner := 2,
           rent_epoch := 0, is_signer := false, is_writable := true,
           executable := false }] [2, 0] =
      .err .IncorrectProgramId
        [{ key := 0, lamports := 0, data := [9, 9], owner := 2,
           rent_epoch := 0, is_signer := false, is_writable := true,
           executable := false }] :=
  owner_mismatch_rejected 1 _ [] [2, 0] (by decide)

/-- Claim C5: a call with an empty account list fails with
NotEnoughAccountKeys; no account storage exists to be read or written. -/
theorem empty_accounts_rejected (pid : Nat) (input : List Nat) :
    process_instruction pid [] input = .err .NotEnoughAccountKeys [] := by
  simp only [process_instruction]

/-- Claim C4: with a correctly owned first account and input bytes that
try_from_slice cannot decode, the call aborts (panics) rather than
returning an error value. -/
theorem malformed_input_aborts (pid : Nat) (a : AccountInfo)
    (rest : List AccountInfo) (input : List Nat) (hown : a.owner = pid)
    (hdec : try_from_slice input = none) :
    process_instruction pid (a :: rest) input = .aborted := by
  simp only [process_instruction]
  rw [if_neg (by simp [hown]), hdec]

/-- Witness for C4: a truncated length prefix aborts the call. -/
theorem malformed_input_aborts_witness :
    process_instruction 1
        [{ key := 0, lamports := 0, data := [0, 0, 0, 0, 0, 0], owner := 1,
           rent_epoch := 0, is_signer := false, is_writable := true,
           executable := false }] [2, 0] = .aborted :=
  malformed_input_aborts 1 _ [] [2, 0] (by decide) (by decide)

/-- Claim C10: the ownership check comes before any decoding: a mismatched
owner yields IncorrectProgramId whatever the input bytes are, and an abort
can only happen when the owner of the first account equals the program id. -/
theorem owner_check_before_decode (pid : Nat) (a : AccountInfo)
    (rest : List AccountInfo) (input : List Nat) :
    (a.owner ≠ pid →
      process_instruction pid (a :: rest) input =
        .err .IncorrectProgramId (a :: rest)) ∧
    (process_instruction pid (a :: rest) input = .aborted →
      a.owner = pid) := by
  constructor
  · intro h
    simp only [process_instruction]
    rw [if_pos h]
  · intro h
    by_contra hne
    simp only [process_instruction] at h
    rw [if_pos hne] at h
    exact Outcome.noConfusion h

/-- Witness for C10: with a mismatched owner and malformed input, the call
still returns IncorrectProgramId. -/
theorem owner_check_before_decode_witness :
    process_instruction 1
        [{ key := 0, lamports := 0, data := [], owner := 0,
           rent_epoch := 0, is_signer := false, is_writable := true,
           executable := false }] [2, 0] =
      .err .IncorrectProgramId
        [{ key := 0, lamports := 0, data := [], owner := 0,
           rent_epoch := 0, is_signer := false, is_writable := true,
           executable := false }] :=
  (owner_check_before_decode 1 _ [] [2, 0]).1 (by decide)

/-- An account value used to instantiate witnesses at concrete inputs. -/
def sampleAccount (ownerId : Nat) (d : List Nat) : AccountInfo :=
  { key := 0, lamports := 0, data := d, owner := ownerId, rent_epoch := 0,
    is_signer := false, is_writable := true, executable := false }

/-- Recomposing a number below 2 to the 32 from its four little-endian base
256 digits gives the number back. -/
theorem u32le_recompose (n : Nat) (h : n < 4294967296) :
    n % 256 + 256 * (n / 256 % 256) + 65536 * (n / 65536 % 256) +
      16777216 * (n / 16777216 % 256) = n := by
  omega

/-- Deserializing a serialized greeting followed by any tail returns the
name and leaves exactly the tail unread. -/
theorem deserialize_serialize (name tail : List Nat)
    (hv : utf8Valid name = true) (hlen : name.length < 4294967296) :
    deserializeGreeting (serializeGreeting name ++ tail) =
      some (name, tail) := by
  have hle : name.length ≤ (name ++ tail).length := by
    rw [List.length_append]
    exact Nat.le_add_right _ _
  simp only [serializeGreeting, u32le, List.cons_append, List.nil_append,
    deserializeGreeting]
  rw [u32le_recompose name.length hlen, if_pos hle, List.take_left,
    List.drop_left, if_pos hv]

/-- A pair produced by a successful deserialization of a byte buffer has a
UTF-8 valid name whose length fits in a u32. -/
theorem deserializeGreeting_sound (bytes name rest : List Nat)
    (hb : ∀ b ∈ bytes, b < 256)
    (h : deserializeGreeting bytes = some (name, rest)) :
    utf8Valid name = true ∧ name.length < 4294967296 := by
  rcases bytes with _ | ⟨b0, _ | ⟨b1, _ | ⟨b2, _ | ⟨b3, r⟩⟩⟩⟩
  · simp [deserializeGreeting] at h
  · simp [deserializeGreeting] at h
  · simp [deserializeGreeting] at h
  · simp [deserializeGreeting] at h
  · have h0 : b0 < 256 := hb _ (by simp)
    have h1 : b1 < 256 := hb _ (by simp)
    have h2 : b2 < 256 := hb _ (by simp)
    have h3 : b3 < 256 := hb _ (by simp)
    simp only [deserializeGreeting] at h
    by_cases hle : b0 + 256 * b1 + 65536 * b2 + 16777216 * b3 ≤ r.length
    · rw [if_pos hle] at h
      by_cases hv :
          utf8Valid (r.take (b0 + 256 * b1 + 65536 * b2 + 16777216 * b3)) =
            true
      · rw [if_pos hv] at h
        simp only [Option.some.injEq, Prod.mk.injEq] at h
        obtain ⟨hn, hr⟩ := h
        subst hn
        refine ⟨hv, ?_⟩
        rw [List.length_take]
        omega
      · rw [if_neg hv] at h
        exact Option.noConfusion h
    · rw [if_neg hle] at h
      exact Option.noConfusion h

/-- A name produced by try_from_slice on a byte buffer is UTF-8 valid and
its length fits in a u32. -/
theorem try_from_slice_sound (input name : List Nat)
    (hb : ∀ b ∈ input, b < 256) (h : try_from_slice input = some name) :
    utf8Valid name = true ∧ name.length < 4294967296 := by
  unfold try_from_slice at h
  cases hd : deserializeGreeting input with
  | none =>
    rw [hd] at h
    exact absurd h (by simp)
  | some p =>
    obtain ⟨nm, rest⟩ := p
    rw [hd] at h
    dsimp only at h
    by_cases hrest : rest = []
    · rw [if_pos hrest] at h
      simp only [Option.some.injEq] at h
      subst h
      subst hrest
      exact deserializeGreeting_sound input nm [] hb hd
    · rw [if_neg hrest] at h
      exact Option.noConfusion h

/-- Claim C2: with a correctly owned first account, input bytes that decode
to a greeting with some name, and a storage buffer at least as long as the
encoding, the call succeeds and the new storage deserializes back to that
exact name. -/
theorem process_roundtrip_on_success (pid : Nat) (a : AccountInfo)
    (rest : List AccountInfo) (input name : List Nat)
    (hb : ∀ b ∈ input, b < 256)
    (hown : a.owner = pid)
    (hdec : try_from_slice input = some name)
    (hfit : (serializeGreeting name).length ≤ a.data.length) :
    process_instruction pid (a :: rest) input =
      .ok ({ a with data := serializeGreeting name ++
              a.data.drop (serializeGreeting name).length } :: rest) ∧
    deserializeGreeting (serializeGreeting name ++
        a.data.drop (serializeGreeting name).length) =
      some (name, a.data.drop (serializeGreeting name).length) := by
  obtain ⟨hv, hlen⟩ := try_from_slice_sound input name hb hdec
  constructor
  · simp only [process_instruction]
    rw [if_neg (by simp [hown]), hdec]
    dsimp only
    simp only [serializeInto]
    rw [if_pos hfit]
  · exact deserialize_serialize name _ hv hlen

/-- Witness for C2 at the name GM and a seven-byte storage buffer. -/
theorem process_roundtrip_on_success_witness :
    process_instruction 1 [sampleAccount 1 [0, 0, 0, 0, 0, 0, 9]]
        [2, 0, 0, 0, 71, 77] =
      .ok ({ sampleAccount 1 [0, 0, 0, 0, 0, 0, 9] with
              data := serializeGreeting [71, 77] ++
                ([0, 0, 0, 0, 0, 0, 9] : List Nat).drop
                  (serializeGreeting [71, 77]).length } :: []) ∧
    deserializeGreeting (serializeGreeting [71, 77] ++
        ([0, 0, 0, 0, 0, 0, 9] : List Nat).drop
          (serializeGreeting [71, 77]).length) =
      some ([71, 77], ([0, 0, 0, 0, 0, 0, 9] : List Nat).drop
        (serializeGreeting [71, 77]).length) :=
  process_roundtrip_on_success 1 (sampleAccount 1 [0, 0, 0, 0, 0, 0, 9]) []
    [2, 0, 0, 0, 71, 77] [71, 77] (by decide) rfl (by decide) (by decide)

/-- Claim C3: serializing a greeting record and deserializing the produced
bytes yields the record back, for every UTF-8 valid name whose byte length
fits in the u32 length prefix. -/
theorem serialize_roundtrip (s : List Nat) (hv : utf8Valid s = true)
    (hlen : s.length < 4294967296) :
    try_from_slice (serializeGreeting s) = some s := by
  have hd := deserialize_serialize s [] hv hlen
  rw [List.append_nil] at hd
  unfold try_from_slice
  rw [hd]
  simp

/-- Witness for C3 at the name GM. -/
theorem serialize_roundtrip_witness :
    try_from_slice (serializeGreeting [71, 77]) = some [71, 77] :=
  serialize_roundtrip [71, 77] (by decide) (by decide)

/-- Claim C6: with a correctly owned account whose buffer is exactly six
bytes (the size of the encoded record for the name GM) and input equal to
that encoding, the call succeeds and the storage becomes exactly the
canonical encoding of GM: the little-endian length prefix followed by the
UTF-8 bytes 71 and 77, nothing else. -/
theorem gm_exact_buffer (pid : Nat) (a : AccountInfo)
    (rest : List AccountInfo) (hown : a.owner = pid)
    (hlen : a.data.length = 6) :
    process_instruction pid (a :: rest) (serializeGreeting [71, 77]) =
      .ok ({ a with data := [2, 0, 0, 0, 71, 77] } :: rest) ∧
    ([2, 0, 0, 0, 71, 77] : List Nat) =
      u32le ([71, 77] : List Nat).length ++ [71, 77] := by
  constructor
  · simp only [process_instruction]
    rw [if_neg (by simp [hown])]
    have hdec : try_from_slice (serializeGreeting [71, 77]) =
        some [71, 77] := by decide
    rw [hdec]
    dsimp only
    simp only [serializeInto]
    rw [if_pos (by rw [hlen]; decide)]
    rw [List.drop_eq_nil_of_le (by rw [hlen]; decide), List.append_nil,
      (by decide : serializeGreeting [71, 77] = [2, 0, 0, 0, 71, 77])]
  · decide

/-- Witness for C6 at a concrete exactly-sized account. -/
theorem gm_exact_buffer_witness :
    process_instruction 1 [sampleAccount 1 [9, 9, 9, 9, 9, 9]]
        (serializeGreeting [71, 77]) =
      .ok ({ sampleAccount 1 [9, 9, 9, 9, 9, 9] with
              data := [2, 0, 0, 0, 71, 77] } :: []) ∧
    ([2, 0, 0, 0, 71, 77] : List Nat) =
      u32le ([71, 77] : List Nat).length ++ [71, 77] :=
  gm_exact_buffer 1 (sampleAccount 1 [9, 9, 9, 9, 9, 9]) [] rfl (by decide)

/-- Claim C7: with a passing ownership check, decodable input, and a
storage buffer strictly shorter than the encoding, the call fails with the
BorshIoError raised by the failing buffer write, and with no other error
kind. -/
theorem write_overflow_error (pid : Nat) (a : AccountInfo)
    (rest : List AccountInfo) (input name : List Nat) (hown : a.owner = pid)
    (hdec : try_from_slice input = some name)
    (hsmall : a.data.length < (serializeGreeting name).length) :
    process_instruction pid (a :: rest) input =
      .err (.BorshIoError writeZeroMsg)
        ({ a with data := (serializeGreeting name).take a.data.length }
          :: rest) := by
  simp only [process_instruction]
  rw [if_neg (by simp [hown]), hdec]
  dsimp only
  simp only [serializeInto]
  rw [if_neg (by omega)]

/-- Witness for C7 at a three-byte buffer and the six-byte encoding of
GM. -/
theorem write_overflow_error_witness :
    process_instruction 1 [sampleAccount 1 [9, 9, 9]] [2, 0, 0, 0, 71, 77] =
      .err (.BorshIoError writeZeroMsg)
        ({ sampleAccount 1 [9, 9, 9] with
            data := (serializeGreeting [71, 77]).take
              ([9, 9, 9] : List Nat).length } :: []) :=
  write_overflow_error 1 (sampleAccount 1 [9, 9, 9]) [] [2, 0, 0, 0, 71, 77]
    [71, 77] rfl (by decide) (by decide)

/-- Claim C8: whatever the outcome, every account after the first one is
left exactly as it was: when the call leaves an observable account list, it
is the original list with at most the head replaced. -/
theorem only_first_account_touched (pid : Nat) (a : AccountInfo)
    (rest : List AccountInfo) (input : List Nat) (l : List AccountInfo)
    (h : outcomeAccounts (process_instruction pid (a :: rest) input) =
      some l) :
    ∃ a2, l = a2 :: rest := by
  simp only [process_instruction] at h
  by_cases hown : a.owner = pid
  · rw [if_neg (by simp [hown])] at h
    cases hdec : try_from_slice input with
    | none =>
      rw [hdec] at h
      exact absurd h (by simp [outcomeAccounts])
    | some name =>
      rw [hdec] at h
      dsimp only at h
      simp only [serializeInto] at h
      by_cases hfit : (serializeGreeting name).length ≤ a.data.length
      · rw [if_pos hfit] at h
        simp only [outcomeAccounts, Option.some.injEq] at h
        exact ⟨_, h.symm⟩
      · rw [if_neg hfit] at h
        simp only [outcomeAccounts, Option.some.injEq] at h
        exact ⟨_, h.symm⟩
  · rw [if_pos hown] at h
    simp only [outcomeAccounts, Option.some.injEq] at h
    exact ⟨a, h.symm⟩

/-- Witness for C8: an ownership-mismatch call leaves the tail (here empty)
unchanged. -/
theorem only_first_account_touched_witness :
    ∃ a2, [sampleAccount 2 [5]] = a2 :: ([] : List AccountInfo) :=
  only_first_account_touched 1 (sampleAccount 2 [5]) [] [2, 0]
    [sampleAccount 2 [5]] (by decide)

/-- Claim C9: a successful call overwrites exactly the first L bytes of the
storage of the first account with the encoded record, L being the length of
that encoding, and every byte from index L on is unchanged. -/
theorem success_overwrites_prefix_only (pid : Nat) (a : AccountInfo)
    (rest : List AccountInfo) (input : List Nat) (accs : List AccountInfo)
    (h : process_instruction pid (a :: rest) input = .ok accs) :
    ∃ name a2, try_from_slice input = some name ∧ accs = a2 :: rest ∧
      a2.data.take (serializeGreeting name).length = serializeGreeting name ∧
      a2.data.drop (serializeGreeting name).length =
        a.data.drop (serializeGreeting name).length := by
  simp only [process_instruction] at h
  by_cases hown : a.owner = pid
  · rw [if_neg (by simp [hown])] at h
    cases hdec : try_from_slice input with
    | none =>
      rw [hdec] at h
      exact Outcome.noConfusion h
    | some name =>
      rw [hdec] at h
      dsimp only at h
      simp only [serializeInto] at h
      by_cases hfit : (serializeGreeting name).length ≤ a.data.length
      · rw [if_pos hfit] at h
        simp only [Outcome.ok.injEq] at h
        exact ⟨name, _, rfl, h.symm, List.take_left _ _,
          List.drop_left _ _⟩
      · rw [if_neg hfit] at h
        exact Outcome.noConfusion h
  · rw [if_pos hown] at h
    exact Outcome.noConfusion h

/-- Witness for C9 at a successful concrete call. -/
theorem success_overwrites_prefix_only_witness :
    ∃ name a2,
      try_from_slice [2, 0, 0, 0, 71, 77] = some name ∧
      (({ sampleAccount 1 [9, 9, 9, 9, 9, 9, 9] with
          data := [2, 0, 0, 0, 71, 77, 9] } : AccountInfo) :: []) =
        a2 :: ([] : List AccountInfo) ∧
      a2.data.take (serializeGreeting name).length = serializeGreeting name ∧
      a2.data.drop (serializeGreeting name).length =
        ([9, 9, 9, 9, 9, 9, 9] : List Nat).drop
          (serializeGreeting name).length :=
  success_overwrites_prefix_only 1 (sampleAccount 1 [9, 9, 9, 9, 9, 9, 9]) []
    [2, 0, 0, 0, 71, 77]
    (({ sampleAccount 1 [9, 9, 9, 9, 9, 9, 9] with
        data := [2, 0, 0, 0, 71, 77, 9] } : AccountInfo) :: []) (by decide)

end GM

